import Mathlib

/-!
Verification of the validation-and-derivation engine of the lottery
configuration panel (src/pages/home.vue).

The page builds its form validation from zod combinators
(`z.preprocess`, `z.coerce.number()`, `.refine`, `.superRefine`,
`z.object`) and derives the normalized YAML tree with plain functions
(`toOptionalNumber`, `toOptionalRange`, `buildGlobalLottery`,
`buildGroupLottery`, `sanitizedConfig`).

The embedding below models:
* JavaScript numbers as `JSNum` (a rational, plus the two infinities and
  NaN); raw form values as `RawValue` (a string as a character list, a
  number, or `undefined`);
* the `Number()` coercion used by `z.coerce.number()` on the decimal
  fragment of its grammar (optional sign, digits, optional fraction,
  `Infinity` forms, surrounding whitespace); this is the fragment the
  form can produce — exponent and radix-prefixed literals are not
  exercised by the page and are mapped to NaN here;
* zod parse results as a three-state outcome (`ok` / `dirty` with
  collected refinement messages / `aborted` on an invalid-type issue),
  matching zod v3 semantics: a failed type check aborts, so attached
  `.refine` steps do not run; failed refinements mark the result dirty
  but later refinements still run and all messages accumulate; an
  object whose child aborted does not run its own `.refine` or
  `.superRefine`.
-/

namespace HomeVue

/-- A JavaScript number: a finite value (modelled as a rational), one of
the two infinities, or NaN. -/
inductive JSNum where
  | finite (q : ℚ)
  | posInf
  | negInf
  | nan
deriving DecidableEq, Repr

/-- A raw form field value: a string (as a list of characters), a
JavaScript number, or `undefined`. -/
inductive RawValue where
  | str (cs : List Char)
  | num (n : JSNum)
  | undef
deriving DecidableEq, Repr

/-- Whitespace characters stripped by JavaScript `Number()` before
parsing (the fragment relevant to this form). -/
def isSpaceChar (c : Char) : Bool :=
  c = ' ' ∨ c = '\t' ∨ c = '\n' ∨ c = '\r'

/-- Strip leading and trailing whitespace, as `Number()` does before
parsing a string. -/
def jsTrim (cs : List Char) : List Char :=
  ((cs.dropWhile isSpaceChar).reverse.dropWhile isSpaceChar).reverse

/-- Decimal digit characters. -/
def isDigitChar (c : Char) : Bool :=
  '0' ≤ c && c ≤ '9'

/-- Numeric value of a digit character. -/
def charDigit (c : Char) : ℕ := c.toNat - 48

/-- Value of a most-significant-first digit string. -/
def digitsToNat (cs : List Char) : ℕ :=
  cs.foldl (fun a c => 10 * a + charDigit c) 0

/-- Parse an unsigned decimal literal: digits, optionally followed by a
dot and fraction digits; at least one digit overall (so `5.`, `.5` and
`5` all parse, `.` and the empty string do not). -/
def parseUnsignedDec (cs : List Char) : Option ℚ :=
  let intPart := cs.takeWhile (fun c => c ≠ '.')
  let rest := cs.dropWhile (fun c => c ≠ '.')
  match rest with
  | [] =>
      if intPart ≠ [] ∧ intPart.all isDigitChar then
        some (digitsToNat intPart)
      else none
  | '.' :: frac =>
      if (intPart ≠ [] ∨ frac ≠ []) ∧ intPart.all isDigitChar ∧ frac.all isDigitChar then
        some ((digitsToNat intPart : ℚ) + (digitsToNat frac : ℚ) / 10 ^ frac.length)
      else none
  | _ => none

/-- Parse an optionally signed decimal literal. -/
def parseSignedDec (cs : List Char) : Option ℚ :=
  match cs with
  | [] => none
  | c :: rest =>
      if c = '-' then (parseUnsignedDec rest).map Neg.neg
      else if c = '+' then parseUnsignedDec rest
      else parseUnsignedDec cs

/-- JavaScript `Number()` applied to a string (decimal fragment): trim
whitespace; the empty remainder coerces to 0; otherwise parse a signed
decimal literal or an `Infinity` form; anything else is NaN. -/
def jsStringToNumber (cs : List Char) : JSNum :=
  let t := jsTrim cs
  if t = [] then .finite 0
  else
    match parseSignedDec t with
    | some q => .finite q
    | none =>
        if t = "Infinity".data ∨ t = "+Infinity".data then .posInf
        else if t = "-Infinity".data then .negInf
        else .nan

/-- JavaScript `Number()` applied to a raw form value: `undefined`
coerces to NaN, numbers pass through, strings are parsed. -/
def jsToNumber : RawValue → JSNum
  | .undef => .nan
  | .num n => n
  | .str cs => jsStringToNumber cs

/-- Character for a decimal digit. -/
def digitChar (d : ℕ) : Char :=
  match d with
  | 0 => '0' | 1 => '1' | 2 => '2' | 3 => '3' | 4 => '4'
  | 5 => '5' | 6 => '6' | 7 => '7' | 8 => '8' | _ => '9'

/-- Most-significant-first digit string of a natural number (`0` prints
as `"0"`). -/
def natToChars (n : ℕ) : List Char :=
  if n = 0 then ['0'] else ((Nat.digits 10 n).map digitChar).reverse

/-- Unsigned decimal rendering of `n / 10 ^ k`: integer part and — when
`k > 0` — a dot followed by exactly `k` fraction digits. -/
def decimalCore (n k : ℕ) : List Char :=
  if k = 0 then natToChars n
  else
    natToChars (n / 10 ^ k) ++ '.' ::
      (List.replicate (k - (natToChars (n % 10 ^ k)).length) '0' ++ natToChars (n % 10 ^ k))

/-- Decimal rendering of the rational `m / 10 ^ k` (sign, integer part,
and — when `k > 0` — a dot followed by exactly `k` fraction digits).
Every finite JavaScript number is a dyadic rational, hence of this form,
and its `String()` rendering in the non-exponent range is a string this
function can produce (up to trailing-zero trimming, which does not
affect the parsed value). -/
def decimalChars (m : ℤ) (k : ℕ) : List Char :=
  if m < 0 then '-' :: decimalCore m.natAbs k else decimalCore m.natAbs k

/-- The page's `preprocessEmptyToUndefined`: the empty string becomes
`undefined`, everything else passes through. -/
def preprocessEmptyToUndefined (v : RawValue) : RawValue :=
  if v = .str [] then .undef else v

/-- Outcome of a zod parse: success with a value, a dirty result whose
refinement messages were collected, or an abort on a failed type check
(zod v3: refinements do not run after an abort). -/
inductive ZStatus (α : Type) where
  | ok (value : α)
  | dirty (value : α) (errs : List String)
  | aborted (errs : List String)
deriving Repr, DecidableEq

/-- All error messages carried by a parse outcome. -/
def ZStatus.errors {α : Type} : ZStatus α → List String
  | .ok _ => []
  | .dirty _ e => e
  | .aborted e => e

/-- The parsed value, when the parse did not abort. -/
def ZStatus.value? {α : Type} : ZStatus α → Option α
  | .ok a => some a
  | .dirty a _ => some a
  | .aborted _ => none

/-- Message of zod v3's invalid-type issue when `z.coerce.number()`
receives a value that coerces to NaN (for example `undefined` or
non-numeric text). -/
def invalidTypeNan : String := "Expected number, received nan"

/-- Bound and integrality options shared by `requiredNumber` calls
(every bound used by the page is an integer). -/
structure NumCfg where
  min? : Option ℤ
  max? : Option ℤ
  integer : Bool
deriving Repr, DecidableEq

/-- Options of `optionalNumber`, which additionally carries an optional
label. -/
structure OptNumCfg where
  min? : Option ℤ
  max? : Option ℤ
  integer : Bool
  label : Option String
deriving Repr, DecidableEq

/-- The page's `label || "数值"` fallback (JavaScript treats the empty
string as falsy). -/
def labelOr (l : Option String) : String :=
  match l with
  | none => "数值"
  | some s => if s = "" then "数值" else s

/-- Decimal rendering of an integer bound, as interpolated into the
error messages. -/
def intToStr (m : ℤ) : String :=
  if m < 0 then String.mk ('-' :: natToChars m.natAbs)
  else String.mk (natToChars m.natAbs)

/-- `Number.isFinite`. -/
def jsIsFinite : JSNum → Bool
  | .finite _ => true
  | _ => false

/-- `Number.isInteger`. -/
def jsIsInteger : JSNum → Bool
  | .finite q => q.den = 1
  | _ => false

/-- JavaScript `v >= b` for an integer bound `b` (false on NaN). -/
def jsGeIntB (n : JSNum) (b : ℤ) : Bool :=
  match n with
  | .finite q => (b : ℚ) ≤ q
  | .posInf => true
  | .negInf => false
  | .nan => false

/-- JavaScript `v <= b` for an integer bound `b` (false on NaN). -/
def jsLeIntB (n : JSNum) (b : ℤ) : Bool :=
  match n with
  | .finite q => q ≤ (b : ℚ)
  | .posInf => false
  | .negInf => true
  | .nan => false

/-- JavaScript `a <= b` on two numbers (false whenever NaN is
involved). -/
def jsLeNum : JSNum → JSNum → Bool
  | .nan, _ => false
  | _, .nan => false
  | .finite a, .finite b => a ≤ b
  | .finite _, .posInf => true
  | .finite _, .negInf => false
  | .posInf, .posInf => true
  | .posInf, .finite _ => false
  | .posInf, .negInf => false
  | .negInf, _ => true

/-- JavaScript `a > b` on two numbers (false whenever NaN is
involved). -/
def jsGtNum : JSNum → JSNum → Bool
  | .nan, _ => false
  | _, .nan => false
  | .finite a, .finite b => b < a
  | .finite _, .posInf => false
  | .finite _, .negInf => true
  | .posInf, .posInf => false
  | .posInf, .finite _ => true
  | .posInf, .negInf => true
  | .negInf, _ => false

/-- The page's `requiredNumber(label, cfg)` schema applied to a raw
value: preprocess the empty string to `undefined`, coerce with
`Number()`; a NaN result aborts with zod's invalid-type issue; otherwise
the refinements run in source order (finiteness with the
"must not be empty" message, integrality, lower bound, upper bound),
collecting every failed message. -/
def requiredNumberValidate (label : String) (cfg : NumCfg) (v : RawValue) :
    ZStatus JSNum :=
  let n := jsToNumber (preprocessEmptyToUndefined v)
  if n = .nan then .aborted [invalidTypeNan]
  else
    let e1 := if jsIsFinite n then [] else [label ++ "不能为空"]
    let e2 := if cfg.integer && !(jsIsInteger n) then [label ++ "必须为整数"] else []
    let e3 :=
      match cfg.min? with
      | some b => if jsGeIntB n b then [] else [label ++ "不能小于 " ++ intToStr b]
      | none => []
    let e4 :=
      match cfg.max? with
      | some b => if jsLeIntB n b then [] else [label ++ "不能大于 " ++ intToStr b]
      | none => []
    let errs := e1 ++ e2 ++ e3 ++ e4
    if errs.isEmpty then .ok n else .dirty n errs

/-- The page's `optionalNumber(cfg)` schema applied to a raw value: the
empty string preprocesses to `undefined`, which the `.optional()`
wrapper accepts as an absent value; any other value is coerced; NaN
aborts with the invalid-type issue; otherwise the refinements run in
source order (finiteness with the "must be a valid number" message,
lower bound, upper bound, integrality). -/
def optionalNumberValidate (cfg : OptNumCfg) (v : RawValue) :
    ZStatus (Option JSNum) :=
  match preprocessEmptyToUndefined v with
  | .undef => .ok none
  | v' =>
    let lbl := labelOr cfg.label
    let n := jsToNumber v'
    if n = .nan then .aborted [invalidTypeNan]
    else
      let e1 := if jsIsFinite n then [] else [lbl ++ "需为有效数字"]
      let e2 :=
        match cfg.min? with
        | some b => if jsGeIntB n b then [] else [lbl ++ "不能小于 " ++ intToStr b]
        | none => []
      let e3 :=
        match cfg.max? with
        | some b => if jsLeIntB n b then [] else [lbl ++ "不能大于 " ++ intToStr b]
        | none => []
      let e4 := if cfg.integer && !(jsIsInteger n) then [lbl ++ "必须为整数"] else []
      let errs := e1 ++ e2 ++ e3 ++ e4
      if errs.isEmpty then .ok (some n) else .dirty (some n) errs

/-- The page's `requiredRange(label, cfg)` schema on a (start, end)
pair: both ends parse with `requiredNumber` (labels suffixed 最小值 /
最大值); a zod object collects both children's issues and aborts if
either child aborted, in which case the `.refine` ordering check does
not run; otherwise the ordering refinement `start <= end` may add its
message. -/
def requiredRangeValidate (label : String) (mn : ℤ) (st en : RawValue) :
    ZStatus (JSNum × JSNum) :=
  let rs := requiredNumberValidate (label ++ "最小值") ⟨some mn, none, false⟩ st
  let re := requiredNumberValidate (label ++ "最大值") ⟨some mn, none, false⟩ en
  let childErrs := rs.errors ++ re.errors
  match rs.value?, re.value? with
  | some s, some e =>
      if jsLeNum s e then
        if childErrs.isEmpty then .ok (s, e) else .dirty (s, e) childErrs
      else .dirty (s, e) (childErrs ++ [label ++ "最小值不能大于最大值"])
  | _, _ => .aborted childErrs

/-- The page's `optionalRange(label, cfg)` schema on a (start, end)
pair: both ends parse with `optionalNumber`; if either child aborted the
`.superRefine` does not run; otherwise the `.superRefine` accepts
both-absent, reports the pairing message when exactly one end is
absent, and otherwise reports the ordering message when
`start > end`. -/
def optionalRangeValidate (label : String) (mn : ℤ) (st en : RawValue) :
    ZStatus (Option JSNum × Option JSNum) :=
  let rs := optionalNumberValidate ⟨some mn, none, false, some (label ++ "最小值")⟩ st
  let re := optionalNumberValidate ⟨some mn, none, false, some (label ++ "最大值")⟩ en
  let childErrs := rs.errors ++ re.errors
  match rs.value?, re.value? with
  | some vs, some ve =>
      let refErrs :=
        match vs, ve with
        | none, none => []
        | none, some _ => [label ++ "需要同时填写最小值与最大值"]
        | some _, none => [label ++ "需要同时填写最小值与最大值"]
        | some a, some b => if jsGtNum a b then [label ++ "最小值不能大于最大值"] else []
      let errs := childErrs ++ refErrs
      if errs.isEmpty then .ok (vs, ve) else .dirty (vs, ve) errs
  | _, _ => .aborted childErrs

/-- Classification of a raw value induced by the numeric pipeline of
the page (the spec's `interpret` contract): the preprocessed-away empty
string and `undefined` are Empty; a coercion result that is not a
finite number is Invalid; otherwise Valid with the coerced value. -/
inductive NumResult where
  | empty
  | invalid
  | valid (q : ℚ)
deriving DecidableEq, Repr

/-- Interpretation of a raw value by the numeric pipeline. -/
def interpret (v : RawValue) : NumResult :=
  match preprocessEmptyToUndefined v with
  | .undef => .empty
  | v' =>
      match jsToNumber v' with
      | .finite q => .valid q
      | _ => .invalid

/-- The page's `toOptionalNumber`: a concrete value only when the
stored field already holds a finite number (a runtime `typeof` test —
no string re-interpretation). -/
def toOptionalNumber : RawValue → Option ℚ
  | .num (.finite q) => some q
  | _ => none

/-- A (start, end) range as stored in the form state. -/
structure RangeState where
  start : RawValue
  end_ : RawValue
deriving Repr, DecidableEq

/-- The page's `toOptionalRange`: a pair only when both ends are
concrete. -/
def toOptionalRange (r : RangeState) : Option (ℚ × ℚ) :=
  match toOptionalNumber r.start, toOptionalNumber r.end_ with
  | some a, some b => some (a, b)
  | _, _ => none

/-- A node of the normalized output tree (insertion-ordered object
keys, two-element ranges as pairs). -/
inductive YVal where
  | bool (b : Bool)
  | num (q : ℚ)
  | str (s : String)
  | pair (a b : ℚ)
  | obj (fields : List (String × YVal))
  | arr (items : List YVal)

/-- The lottery `conditions` sub-form. -/
structure LotteryConditionsState where
  countdownRange : RangeState
  maxViewers : RawValue
  minProbability : RawValue
deriving Repr, DecidableEq

/-- The global lottery sub-form. -/
structure GlobalLotteryState where
  conditions : LotteryConditionsState
  fanClub : Bool
  switchThreshold : RawValue
  postStay : RangeState
deriving Repr, DecidableEq

/-- The group-level tri-state fan-club selector. -/
inductive FanClubSelect where
  | inherit
  | isTrue
  | isFalse
deriving Repr, DecidableEq

/-- A group's lottery override sub-form. -/
structure GroupLotteryState where
  conditions : LotteryConditionsState
  fanClub : FanClubSelect
  switchThreshold : RawValue
  postStay : RangeState
deriving Repr, DecidableEq

/-- The conditions object shared by `buildGlobalLottery` and
`buildGroupLottery`: each of the three fields is inserted only when it
resolves to a concrete value. -/
def buildConditions (c : LotteryConditionsState) : List (String × YVal) :=
  (match toOptionalRange c.countdownRange with
   | some p => [("countdown_range", YVal.pair p.1 p.2)]
   | none => []) ++
  (match toOptionalNumber c.maxViewers with
   | some v => [("max_viewers", YVal.num v)]
   | none => []) ++
  (match toOptionalNumber c.minProbability with
   | some v => [("min_probability", YVal.num v)]
   | none => [])

/-- The page's `buildGlobalLottery`: `conditions` only when non-empty,
`fan_club` always, `switch_threshold` and `post_stay` only when
present. -/
def buildGlobalLottery (s : GlobalLotteryState) : List (String × YVal) :=
  let conditions := buildConditions s.conditions
  (if conditions.length > 0 then [("conditions", YVal.obj conditions)] else [])
  ++ [("fan_club", YVal.bool s.fanClub)]
  ++ (match toOptionalNumber s.switchThreshold with
      | some v => [("switch_threshold", YVal.num v)]
      | none => [])
  ++ (match toOptionalRange s.postStay with
      | some p => [("post_stay", YVal.pair p.1 p.2)]
      | none => [])

/-- The override record assembled inside the page's
`buildGroupLottery`: conditions when non-empty, `fan_club` exactly when
the selector is not "inherit" (mapping the text "true"/"false" to a
boolean), then `switch_threshold` and `post_stay` when present. -/
def groupOverrides (l : GroupLotteryState) : List (String × YVal) :=
  let conditions := buildConditions l.conditions
  (if conditions.length > 0 then [("conditions", YVal.obj conditions)] else [])
  ++ (match l.fanClub with
      | .inherit => []
      | .isTrue => [("fan_club", YVal.bool true)]
      | .isFalse => [("fan_club", YVal.bool false)])
  ++ (match toOptionalNumber l.switchThreshold with
      | some v => [("switch_threshold", YVal.num v)]
      | none => [])
  ++ (match toOptionalRange l.postStay with
      | some p => [("post_stay", YVal.pair p.1 p.2)]
      | none => [])

/-- The page's `buildGroupLottery`: `undefined` when the override
record has zero keys. -/
def buildGroupLottery (l : GroupLotteryState) : Option (List (String × YVal)) :=
  if (groupOverrides l).isEmpty then none else some (groupOverrides l)

/-- A group entry of the form state. -/
structure GroupState where
  id : String
  threads : RawValue
  inherit : Bool
  lottery : GroupLotteryState
deriving Repr, DecidableEq

/-- JavaScript `Math.trunc` (truncation toward zero). -/
def jsTrunc (q : ℚ) : ℚ :=
  if 0 ≤ q then (⌊q⌋ : ℚ) else (⌈q⌉ : ℚ)

/-- The payload built for one group inside the page's
`sanitizedConfig`: always `id` and `inherit`; `threads` when concrete
(truncated); `lottery` only when `buildGroupLottery` produced
overrides. -/
def groupPayload (g : GroupState) : List (String × YVal) :=
  [("id", YVal.str g.id), ("inherit", YVal.bool g.inherit)]
  ++ (match toOptionalNumber g.threads with
      | some t => [("threads", YVal.num (jsTrunc t))]
      | none => [])
  ++ (match buildGroupLottery g.lottery with
      | some o => [("lottery", YVal.obj o)]
      | none => [])

/-- The log sub-form. -/
structure LogState where
  disabled : Bool
  level : String
  type_ : String
deriving Repr, DecidableEq

/-- The whole form state relevant to derivation. -/
structure ConfigState where
  log : LogState
  lottery : GlobalLotteryState
  groups : List GroupState
  redisUrl : String
deriving Repr, DecidableEq

/-- The page's `sanitizedConfig`: log verbatim, the derived global
lottery, the group list only when non-empty, and the redis section. -/
def sanitizedConfig (c : ConfigState) : List (String × YVal) :=
  [("log", YVal.obj
      [("disabled", YVal.bool c.log.disabled),
       ("level", YVal.str c.log.level),
       ("type", YVal.str c.log.type_)])]
  ++ [("lottery", YVal.obj (buildGlobalLottery c.lottery))]
  ++ (if c.groups.length > 0 then
        [("bit_browser", YVal.obj
           [("groups", YVal.arr (c.groups.map (fun g => YVal.obj (groupPayload g))))])]
      else [])
  ++ [("redis", YVal.obj [("url", YVal.str c.redisUrl)])]

/-- Last character of a string, used to separate distinct error
messages. -/
def lastChar (s : String) : Option Char := s.data.reverse.head?

/-- A lottery-conditions sub-form with every field left empty. -/
def emptyConditions : LotteryConditionsState :=
  ⟨⟨.undef, .undef⟩, .undef, .undef⟩

/-- A global lottery sub-form with every field left empty. -/
def emptyGlobal : GlobalLotteryState :=
  ⟨emptyConditions, false, .undef, ⟨.undef, .undef⟩⟩

/-- A group lottery override sub-form with every field empty or set to
"inherit". -/
def emptyGroupLottery : GroupLotteryState :=
  ⟨emptyConditions, .inherit, .undef, ⟨.undef, .undef⟩⟩

/-- End-to-end scenario 1 of the spec: the global lottery section with
countdown 30–180, 5000 max viewers, 80 percent minimum probability,
fan club off, an empty switch threshold and post-stay 5–10. -/
def scenario1 : GlobalLotteryState :=
  ⟨⟨⟨.num (.finite 30), .num (.finite 180)⟩, .num (.finite 5000), .num (.finite 80)⟩,
    false, .str [], ⟨.num (.finite 5), .num (.finite 10)⟩⟩

/-- End-to-end scenario 2 of the spec: a group with id "g1", two
threads, inherit on and no overrides. -/
def scenario2Group : GroupState :=
  ⟨"g1", .num (.finite 2), true, emptyGroupLottery⟩

/-- End-to-end scenario 3 of the spec: a group override with the
fan-club selector on "true" and every other override field empty. -/
def scenario3Lottery : GroupLotteryState :=
  ⟨emptyConditions, .isTrue, .undef, ⟨.undef, .undef⟩⟩

/-- A global lottery section whose switch threshold holds the numeric
string "5" (as typed text, not a number). -/
def scenario10 : GlobalLotteryState :=
  ⟨⟨⟨.num (.finite 30), .num (.finite 180)⟩, .num (.finite 5000), .num (.finite 80)⟩,
    false, .str ['5'], ⟨.num (.finite 5), .num (.finite 10)⟩⟩

/-! ### Digit-string lemmas -/

theorem charDigit_digitChar : ∀ d : ℕ, d < 10 → charDigit (digitChar d) = d := by
  decide

theorem isDigitChar_digitChar : ∀ d : ℕ, d < 10 → isDigitChar (digitChar d) = true := by
  decide

theorem natToChars_ne_nil (n : ℕ) : natToChars n ≠ [] := by
  unfold natToChars
  by_cases h : n = 0
  · simp [h]
  · simp [h, Nat.digits_ne_nil_iff_ne_zero]

theorem natToChars_all (n : ℕ) : (natToChars n).all isDigitChar = true := by
  unfold natToChars
  by_cases h : n = 0
  · simp only [h, if_pos rfl]
    decide
  · rw [if_neg h, List.all_eq_true]
    intro c hc
    obtain ⟨d, hd, rfl⟩ := List.mem_map.mp (List.mem_reverse.mp hc)
    exact isDigitChar_digitChar d (Nat.digits_lt_base (by norm_num) hd)

theorem foldl_digits_map (l : List ℕ) (hl : ∀ d ∈ l, d < 10) (a : ℕ) :
    List.foldl (fun x c => 10 * x + charDigit c) a (l.map digitChar)
      = List.foldl (fun x d => 10 * x + d) a l := by
  induction l generalizing a with
  | nil => rfl
  | cons d t ih =>
      simp only [List.map_cons, List.foldl_cons]
      rw [charDigit_digitChar d (hl d (List.mem_cons_self d t))]
      exact ih (fun x hx => hl x (List.mem_cons_of_mem d hx)) _

theorem foldl_reverse_ofDigits (l : List ℕ) (a : ℕ) :
    List.foldl (fun x d => 10 * x + d) a l.reverse
      = a * 10 ^ l.length + Nat.ofDigits 10 l := by
  induction l generalizing a with
  | nil => simp
  | cons d t ih =>
      simp only [List.reverse_cons, List.foldl_append, List.foldl_cons, List.foldl_nil,
        ih, Nat.ofDigits_cons, List.length_cons]
      ring

theorem digitsToNat_natToChars (n : ℕ) : digitsToNat (natToChars n) = n := by
  unfold digitsToNat natToChars
  by_cases h : n = 0
  · simp only [h, if_pos rfl]
    decide
  · rw [if_neg h]
    rw [show ((Nat.digits 10 n).map digitChar).reverse
          = (Nat.digits 10 n).reverse.map digitChar from by rw [List.map_reverse]]
    rw [foldl_digits_map _ (fun d hd => Nat.digits_lt_base (by norm_num) (List.mem_reverse.mp hd)) 0]
    rw [foldl_reverse_ofDigits]
    simp [Nat.ofDigits_digits]

theorem digitsToNat_replicate_append (j : ℕ) (cs : List Char) :
    digitsToNat (List.replicate j '0' ++ cs) = digitsToNat cs := by
  induction j with
  | zero => simp
  | succ j ih =>
      rw [List.replicate_succ, List.cons_append]
      show List.foldl (fun x c => 10 * x + charDigit c) (10 * 0 + charDigit '0') _ = _
      exact ih

theorem natToChars_length_le (m k : ℕ) (hm : m < 10 ^ k) (hk : k ≠ 0) :
    (natToChars m).length ≤ k := by
  unfold natToChars
  by_cases h : m = 0
  · simp [h]
    omega
  · rw [if_neg h]
    simp only [List.length_reverse, List.length_map]
    rw [Nat.digits_len 10 m (by norm_num) h]
    have := Nat.log_lt_of_lt_pow h hm
    omega

theorem isDigitChar_ne_dot {c : Char} (h : isDigitChar c = true) : c ≠ '.' := by
  intro he
  rw [he] at h
  exact absurd h (by decide)

theorem isDigitChar_ne_dash {c : Char} (h : isDigitChar c = true) : c ≠ '-' := by
  intro he
  rw [he] at h
  exact absurd h (by decide)

theorem isDigitChar_ne_plus {c : Char} (h : isDigitChar c = true) : c ≠ '+' := by
  intro he
  rw [he] at h
  exact absurd h (by decide)

theorem isDigitChar_not_space {c : Char} (h : isDigitChar c = true) :
    isSpaceChar c = false := by
  by_cases h1 : c = ' '
  · rw [h1] at h; exact absurd h (by decide)
  by_cases h2 : c = '\t'
  · rw [h2] at h; exact absurd h (by decide)
  by_cases h3 : c = '\n'
  · rw [h3] at h; exact absurd h (by decide)
  by_cases h4 : c = '\r'
  · rw [h4] at h; exact absurd h (by decide)
  simp [isSpaceChar, h1, h2, h3, h4]

theorem takeWhile_all_split (p : Char → Bool) (A : List Char)
    (hA : ∀ a ∈ A, p a = true) :
    A.takeWhile p = A ∧ A.dropWhile p = [] := by
  induction A with
  | nil => exact ⟨rfl, rfl⟩
  | cons a t ih =>
      obtain ⟨h1, h2⟩ := ih (fun x hx => hA x (List.mem_cons_of_mem a hx))
      have ha := hA a (List.mem_cons_self a t)
      constructor
      · simp [List.takeWhile_cons, ha, h1]
      · simp [List.dropWhile_cons, ha, h2]

theorem split_at_stop (p : Char → Bool) (A B : List Char) (x : Char)
    (hA : ∀ a ∈ A, p a = true) (hx : p x = false) :
    (A ++ x :: B).takeWhile p = A ∧ (A ++ x :: B).dropWhile p = x :: B := by
  induction A with
  | nil =>
      constructor
      · simp [List.takeWhile_cons, hx]
      · simp [List.dropWhile_cons, hx]
  | cons a t ih =>
      obtain ⟨h1, h2⟩ := ih (fun y hy => hA y (List.mem_cons_of_mem a hy))
      have ha := hA a (List.mem_cons_self a t)
      constructor
      · simp [List.takeWhile_cons, ha, h1]
      · simp [List.dropWhile_cons, ha, h2]

theorem dropWhile_eq_self_of_none (p : Char → Bool) (l : List Char)
    (h : ∀ c ∈ l, p c = false) : l.dropWhile p = l := by
  cases l with
  | nil => rfl
  | cons a t => simp [List.dropWhile_cons, h a (List.mem_cons_self a t)]

theorem jsTrim_eq_self (l : List Char) (h : ∀ c ∈ l, isSpaceChar c = false) :
    jsTrim l = l := by
  unfold jsTrim
  rw [dropWhile_eq_self_of_none _ _ h]
  rw [dropWhile_eq_self_of_none _ _ (fun c hc => h c (List.mem_reverse.mp hc))]
  exact List.reverse_reverse l

theorem decimalCore_ne_nil (n k : ℕ) : decimalCore n k ≠ [] := by
  unfold decimalCore
  by_cases hk : k = 0
  · simp only [hk, if_pos rfl]
    exact natToChars_ne_nil n
  · simp [hk, natToChars_ne_nil]

theorem decimalCore_chars (n k : ℕ) :
    ∀ c ∈ decimalCore n k, isDigitChar c = true ∨ c = '.' := by
  unfold decimalCore
  by_cases hk : k = 0
  · simp only [hk, if_pos rfl]
    intro c hc
    exact Or.inl (List.all_eq_true.mp (natToChars_all n) c hc)
  · simp only [hk, if_neg]
    intro c hc
    rcases List.mem_append.mp hc with h | h
    · exact Or.inl (List.all_eq_true.mp (natToChars_all _) c h)
    · rcases List.mem_cons.mp h with h | h
      · exact Or.inr h
      · rcases List.mem_append.mp h with h | h
        · exact Or.inl (by rw [(List.mem_replicate.mp h).2]; decide)
        · exact Or.inl (List.all_eq_true.mp (natToChars_all _) c h)

theorem decimalChars_no_space (m : ℤ) (k : ℕ) :
    ∀ c ∈ decimalChars m k, isSpaceChar c = false := by
  unfold decimalChars
  intro c hc
  have core : c ∈ decimalCore m.natAbs k → isSpaceChar c = false := by
    intro h
    rcases decimalCore_chars m.natAbs k c h with h | h
    · exact isDigitChar_not_space h
    · rw [h]; decide
  by_cases hm : m < 0
  · rw [if_pos hm] at hc
    rcases List.mem_cons.mp hc with h | h
    · rw [h]; decide
    · exact core h
  · rw [if_neg hm] at hc
    exact core hc

theorem decimalChars_ne_nil (m : ℤ) (k : ℕ) : decimalChars m k ≠ [] := by
  unfold decimalChars
  by_cases hm : m < 0
  · simp [hm]
  · simp [hm, decimalCore_ne_nil]

theorem div_add_mod_qcast (n k : ℕ) :
    ((n / 10 ^ k : ℕ) : ℚ) + ((n % 10 ^ k : ℕ) : ℚ) / 10 ^ k = (n : ℚ) / 10 ^ k := by
  have h0 : ((10 : ℚ) ^ k) ≠ 0 := by positivity
  have hnat : 10 ^ k * (n / 10 ^ k) + n % 10 ^ k = n := Nat.div_add_mod n (10 ^ k)
  have hq : ((10 : ℚ)) ^ k * ((n / 10 ^ k : ℕ) : ℚ) + ((n % 10 ^ k : ℕ) : ℚ) = (n : ℚ) := by
    exact_mod_cast congrArg (fun x : ℕ => (x : ℚ)) hnat
  field_simp
  linarith

theorem parseUnsignedDec_core (n k : ℕ) :
    parseUnsignedDec (decimalCore n k) = some ((n : ℚ) / 10 ^ k) := by
  unfold decimalCore
  by_cases hk : k = 0
  · rw [if_pos hk]
    have hall := natToChars_all n
    have hd : ∀ a ∈ natToChars n, (fun c => decide (c ≠ '.')) a = true := by
      intro a ha
      simp [isDigitChar_ne_dot (List.all_eq_true.mp hall a ha)]
    obtain ⟨h1, h2⟩ := takeWhile_all_split _ (natToChars n) hd
    simp only [parseUnsignedDec, h1, h2]
    rw [if_pos ⟨natToChars_ne_nil n, hall⟩]
    rw [digitsToNat_natToChars, hk]
    norm_num
  · rw [if_neg hk]
    have hAall := natToChars_all (n / 10 ^ k)
    have hA : ∀ a ∈ natToChars (n / 10 ^ k), (fun c => decide (c ≠ '.')) a = true := by
      intro a ha
      simp [isDigitChar_ne_dot (List.all_eq_true.mp hAall a ha)]
    obtain ⟨h1, h2⟩ := split_at_stop (fun c => decide (c ≠ '.')) (natToChars (n / 10 ^ k))
      (List.replicate (k - (natToChars (n % 10 ^ k)).length) '0' ++ natToChars (n % 10 ^ k))
      '.' hA (by simp)
    simp only [parseUnsignedDec, h1, h2]
    have hFall : (List.replicate (k - (natToChars (n % 10 ^ k)).length) '0'
        ++ natToChars (n % 10 ^ k)).all isDigitChar = true := by
      rw [List.all_append]
      refine (Bool.and_eq_true _ _).mpr ⟨?_, natToChars_all _⟩
      rw [List.all_eq_true]
      intro c hc
      rw [(List.mem_replicate.mp hc).2]
      decide
    rw [if_pos ⟨Or.inl (natToChars_ne_nil _), hAall, hFall⟩]
    have hFv : digitsToNat (List.replicate (k - (natToChars (n % 10 ^ k)).length) '0'
        ++ natToChars (n % 10 ^ k)) = n % 10 ^ k := by
      rw [digitsToNat_replicate_append, digitsToNat_natToChars]
    have hFlen : (List.replicate (k - (natToChars (n % 10 ^ k)).length) '0'
        ++ natToChars (n % 10 ^ k)).length = k := by
      rw [List.length_append, List.length_replicate]
      have hle : (natToChars (n % 10 ^ k)).length ≤ k :=
        natToChars_length_le _ _ (Nat.mod_lt _ (by positivity)) hk
      omega
    rw [digitsToNat_natToChars, hFv, hFlen, div_add_mod_qcast]

theorem parseSignedDec_decimal (m : ℤ) (k : ℕ) :
    parseSignedDec (decimalChars m k) = some ((m : ℚ) / 10 ^ k) := by
  have head_digit : ∃ c rest, decimalCore m.natAbs k = c :: rest ∧ isDigitChar c = true := by
    cases h : decimalCore m.natAbs k with
    | nil => exact absurd h (decimalCore_ne_nil _ _)
    | cons c rest =>
        refine ⟨c, rest, rfl, ?_⟩
        have := decimalCore_chars m.natAbs k c (by rw [h]; exact List.mem_cons_self c rest)
        rcases this with hd | hdot
        · exact hd
        · -- the head of the core is the head of a non-empty digit string, never the dot
          exfalso
          unfold decimalCore at h
          by_cases hk : k = 0
          · rw [if_pos hk] at h
            have := List.all_eq_true.mp (natToChars_all m.natAbs) c
              (by rw [h]; exact List.mem_cons_self c rest)
            exact isDigitChar_ne_dot this hdot
          · rw [if_neg hk] at h
            cases hnc : natToChars (m.natAbs / 10 ^ k) with
            | nil => exact natToChars_ne_nil _ hnc
            | cons c0 t0 =>
                rw [hnc, List.cons_append] at h
                have hcc : c0 = c := by
                  have h2 := congrArg List.head? h
                  simpa using h2
                have hdig := List.all_eq_true.mp (natToChars_all (m.natAbs / 10 ^ k)) c0
                  (by rw [hnc]; exact List.mem_cons_self c0 t0)
                rw [hcc] at hdig
                exact isDigitChar_ne_dot hdig hdot
  obtain ⟨c, rest, hcore, hc⟩ := head_digit
  unfold decimalChars
  by_cases hm : m < 0
  · rw [if_pos hm, hcore]
    show (if '-' = '-' then (parseUnsignedDec (c :: rest)).map Neg.neg
          else if '-' = '+' then parseUnsignedDec (c :: rest)
          else parseUnsignedDec ('-' :: c :: rest)) = _
    rw [if_pos rfl, ← hcore, parseUnsignedDec_core]
    have habs : ((m.natAbs : ℕ) : ℚ) = -(m : ℚ) := by
      rw [Int.cast_natAbs, Int.cast_abs]
      exact abs_of_neg (show (m : ℚ) < 0 by exact_mod_cast hm)
    simp [habs]
    ring
  · rw [if_neg hm, hcore]
    show (if c = '-' then (parseUnsignedDec rest).map Neg.neg
          else if c = '+' then parseUnsignedDec rest
          else parseUnsignedDec (c :: rest)) = _
    rw [if_neg (isDigitChar_ne_dash hc), if_neg (isDigitChar_ne_plus hc), ← hcore,
      parseUnsignedDec_core]
    have habs : ((m.natAbs : ℕ) : ℚ) = (m : ℚ) := by
      rw [Int.cast_natAbs, Int.cast_abs]
      exact abs_of_nonneg (show (0 : ℚ) ≤ (m : ℚ) by exact_mod_cast not_lt.mp hm)
    rw [habs]

theorem jsStringToNumber_decimal (m : ℤ) (k : ℕ) :
    jsStringToNumber (decimalChars m k) = .finite ((m : ℚ) / 10 ^ k) := by
  unfold jsStringToNumber
  rw [jsTrim_eq_self _ (decimalChars_no_space m k)]
  rw [if_neg (decimalChars_ne_nil m k)]
  rw [parseSignedDec_decimal]

theorem lastChar_append (a b : String) (hb : b.data ≠ []) :
    lastChar (a ++ b) = lastChar b := by
  unfold lastChar
  rw [String.data_append, List.reverse_append]
  cases hbd : b.data.reverse with
  | nil => exact absurd (by simpa using congrArg List.reverse hbd) hb
  | cons x t => simp [hbd]

theorem ne_of_lastChar {s t : String} (h : lastChar s ≠ lastChar t) : s ≠ t :=
  fun he => h (he ▸ rfl)

theorem value?_ite {α : Type} (c : Prop) [Decidable c] (a : α) (e : List String) :
    (if c then ZStatus.ok a else ZStatus.dirty a e).value? = some a := by
  split <;> rfl

theorem optionalNumberValidate_value (cfg : OptNumCfg) (v : RawValue)
    (h1 : preprocessEmptyToUndefined v ≠ .undef)
    (h2 : jsToNumber (preprocessEmptyToUndefined v) ≠ .nan) :
    (optionalNumberValidate cfg v).value?
      = some (some (jsToNumber (preprocessEmptyToUndefined v))) := by
  cases hp : preprocessEmptyToUndefined v with
  | undef => exact absurd hp h1
  | str cs =>
      rw [hp] at h2
      simp only [optionalNumberValidate, hp]
      rw [if_neg h2]
      exact value?_ite _ _ _
  | num n =>
      rw [hp] at h2
      simp only [optionalNumberValidate, hp]
      rw [if_neg h2]
      exact value?_ite _ _ _

/-! ### Claims -/

/-- C1 counterexample: on the required countdown range with start 5 and
an empty end, validation reports zod's invalid-type issue for the end
field and not the pairing error — `requiredRange` has no pairing
refinement at all, so "partial fill is always reported as the pairing
error, whether required or optional" fails on required ranges. -/
theorem requiredRange_partial_fill_counterexample :
    (requiredRangeValidate "全局倒计时范围（秒）" 0 (.num (.finite 5)) (.str [])).errors
      = [invalidTypeNan]
    ∧ "全局倒计时范围（秒）需要同时填写最小值与最大值" ∉
        (requiredRangeValidate "全局倒计时范围（秒）" 0 (.num (.finite 5)) (.str [])).errors := by
  refine ⟨rfl, ?_⟩
  rw [show (requiredRangeValidate "全局倒计时范围（秒）" 0 (.num (.finite 5)) (.str [])).errors
        = [invalidTypeNan] from rfl]
  decide

/-- C1 amended: the pairing error is an `optionalRange` behaviour: when
one end is empty and the other preprocesses to a value whose coercion
is not NaN, the pairing message is reported (whichever end is filled);
a `requiredRange` with one end empty instead aborts with the empty
end's invalid-type issue next to the filled end's own errors, and never
mentions pairing. -/
theorem optionalRange_pairing_amended :
    (∀ (label : String) (mn : ℤ) (s : RawValue),
      preprocessEmptyToUndefined s ≠ .undef →
      jsToNumber (preprocessEmptyToUndefined s) ≠ .nan →
      (label ++ "需要同时填写最小值与最大值")
          ∈ (optionalRangeValidate label mn s (.str [])).errors
      ∧ (label ++ "需要同时填写最小值与最大值")
          ∈ (optionalRangeValidate label mn (.str []) s).errors)
    ∧ (∀ (label : String) (mn : ℤ) (s : RawValue),
        requiredRangeValidate label mn s (.str [])
          = .aborted ((requiredNumberValidate (label ++ "最小值") ⟨some mn, none, false⟩ s).errors
              ++ [invalidTypeNan])
        ∧ requiredRangeValidate label mn (.str []) s
          = .aborted (invalidTypeNan ::
              (requiredNumberValidate (label ++ "最大值") ⟨some mn, none, false⟩ s).errors)) := by
  constructor
  · intro label mn s h1 h2
    have hs := optionalNumberValidate_value
      ⟨some mn, none, false, some (label ++ "最小值")⟩ s h1 h2
    have hs' := optionalNumberValidate_value
      ⟨some mn, none, false, some (label ++ "最大值")⟩ s h1 h2
    constructor
    · simp only [optionalRangeValidate, hs,
        show (optionalNumberValidate ⟨some mn, none, false, some (label ++ "最大值")⟩
          (.str [])).value? = some none from rfl,
        show (optionalNumberValidate ⟨some mn, none, false, some (label ++ "最大值")⟩
          (.str [])).errors = [] from rfl]
      split <;> simp_all [ZStatus.errors, List.mem_append]
    · simp only [optionalRangeValidate, hs',
        show (optionalNumberValidate ⟨some mn, none, false, some (label ++ "最小值")⟩
          (.str [])).value? = some none from rfl,
        show (optionalNumberValidate ⟨some mn, none, false, some (label ++ "最小值")⟩
          (.str [])).errors = [] from rfl]
      split <;> simp_all [ZStatus.errors, List.mem_append]
  · intro label mn s
    constructor
    · cases hv : (requiredNumberValidate (label ++ "最小值") ⟨some mn, none, false⟩ s).value? with
      | none =>
          simp [requiredRangeValidate, hv,
            show (requiredNumberValidate (label ++ "最大值") ⟨some mn, none, false⟩
              (.str [])) = .aborted [invalidTypeNan] from rfl, ZStatus.errors,
            ZStatus.value?]
      | some x =>
          simp [requiredRangeValidate, hv,
            show (requiredNumberValidate (label ++ "最大值") ⟨some mn, none, false⟩
              (.str [])) = .aborted [invalidTypeNan] from rfl, ZStatus.errors,
            ZStatus.value?]
    · cases hv : (requiredNumberValidate (label ++ "最大值") ⟨some mn, none, false⟩ s).value? with
      | none =>
          simp [requiredRangeValidate, hv,
            show (requiredNumberValidate (label ++ "最小值") ⟨some mn, none, false⟩
              (.str [])) = .aborted [invalidTypeNan] from rfl, ZStatus.errors,
            ZStatus.value?]
      | some x =>
          simp [requiredRangeValidate, hv,
            show (requiredNumberValidate (label ++ "最小值") ⟨some mn, none, false⟩
              (.str [])) = .aborted [invalidTypeNan] from rfl, ZStatus.errors,
            ZStatus.value?]

/-- C1 amended witness. -/
theorem optionalRange_pairing_amended_witness :
    ("倒计时范围（秒）" ++ "需要同时填写最小值与最大值")
      ∈ (optionalRangeValidate "倒计时范围（秒）" 0 (.num (.finite 5)) (.str [])).errors :=
  (optionalRange_pairing_amended.1 "倒计时范围（秒）" 0 (.num (.finite 5))
    (by decide) (by decide)).1

/-- C5: when none of the three global condition fields resolves to a
concrete value, the derived global lottery object carries no
`conditions` key at all. -/
theorem buildGlobalLottery_omits_empty_conditions :
    ∀ s : GlobalLotteryState,
      toOptionalRange s.conditions.countdownRange = none →
      toOptionalNumber s.conditions.maxViewers = none →
      toOptionalNumber s.conditions.minProbability = none →
      "conditions" ∉ (buildGlobalLottery s).map Prod.fst := by
  intro s h1 h2 h3
  unfold buildGlobalLottery buildConditions
  rw [h1, h2, h3]
  cases toOptionalNumber s.switchThreshold <;>
    cases toOptionalRange s.postStay <;>
    simp

/-- C5 witness. -/
theorem buildGlobalLottery_omits_empty_conditions_witness :
    "conditions" ∉ (buildGlobalLottery emptyGlobal).map Prod.fst :=
  buildGlobalLottery_omits_empty_conditions emptyGlobal rfl rfl rfl

/-- C7: a group whose override record resolves to zero keys derives a
payload without the `lottery` key; in particular scenario 2's group
derives exactly id "g1", inherit true, threads 2. -/
theorem group_omits_empty_lottery :
    (∀ g : GroupState, groupOverrides g.lottery = [] →
      "lottery" ∉ (groupPayload g).map Prod.fst)
    ∧ groupPayload scenario2Group =
        [("id", YVal.str "g1"), ("inherit", YVal.bool true), ("threads", YVal.num 2)] := by
  constructor
  · intro g h
    unfold groupPayload buildGroupLottery
    rw [h]
    cases toOptionalNumber g.threads <;> simp
  · rfl

/-- C7 witness. -/
theorem group_omits_empty_lottery_witness :
    "lottery" ∉ (groupPayload scenario2Group).map Prod.fst :=
  group_omits_empty_lottery.1 scenario2Group rfl

/-- C8: the override record carries `fan_club` exactly when the
tri-state selector is not "inherit", mapping "true" to true and
"false" to false; scenario 3 derives a lottery override of exactly
fan_club true. -/
theorem groupOverrides_fan_club :
    (∀ l : GroupLotteryState,
      List.lookup "fan_club" (groupOverrides l) =
        (match l.fanClub with
         | .inherit => none
         | .isTrue => some (YVal.bool true)
         | .isFalse => some (YVal.bool false)))
    ∧ buildGroupLottery scenario3Lottery = some [("fan_club", YVal.bool true)] := by
  constructor
  · intro l
    have e1 : ("fan_club" == "conditions") = false := by decide
    have e2 : ("fan_club" == "switch_threshold") = false := by decide
    have e3 : ("fan_club" == "post_stay") = false := by decide
    have e4 : ("fan_club" == "fan_club") = true := by decide
    simp only [groupOverrides]
    by_cases hc : (buildConditions l.conditions).length > 0
    · rw [if_pos hc]
      cases l.fanClub <;>
        cases toOptionalNumber l.switchThreshold <;>
        cases toOptionalRange l.postStay <;>
        simp [List.lookup, e1, e2, e3, e4]
    · rw [if_neg hc]
      cases l.fanClub <;>
        cases toOptionalNumber l.switchThreshold <;>
        cases toOptionalRange l.postStay <;>
        simp [List.lookup, e1, e2, e3, e4]
  · rfl

/-- C9: interpretation always lands in exactly one of Empty, Invalid,
Valid(n); and it is idempotent on stringified valid results: a value
interpreted as Valid(m/10^k) reinterprets from its decimal rendering to
the same Valid(m/10^k). -/
theorem interpret_partition_and_idempotent :
    (∀ r : RawValue,
      (interpret r = .empty ∨ interpret r = .invalid ∨ ∃ n, interpret r = .valid n)
      ∧ ¬ (interpret r = .empty ∧ interpret r = .invalid)
      ∧ (∀ n, ¬ (interpret r = .empty ∧ interpret r = .valid n))
      ∧ (∀ n, ¬ (interpret r = .invalid ∧ interpret r = .valid n)))
    ∧ (∀ (r : RawValue) (m : ℤ) (k : ℕ),
        interpret r = .valid ((m : ℚ) / 10 ^ k) →
        interpret (.str (decimalChars m k)) = .valid ((m : ℚ) / 10 ^ k)) := by
  constructor
  · intro r
    cases h : interpret r with
    | empty => refine ⟨Or.inl rfl, ?_, ?_, ?_⟩ <;> simp
    | invalid => refine ⟨Or.inr (Or.inl rfl), ?_, ?_, ?_⟩ <;> simp
    | valid q => refine ⟨Or.inr (Or.inr ⟨q, rfl⟩), ?_, ?_, ?_⟩ <;> simp
  · intro r m k _h
    have hj : jsStringToNumber (decimalChars m k) = JSNum.finite ((m : ℚ) / 10 ^ k) :=
      jsStringToNumber_decimal m k
    have hne : RawValue.str (decimalChars m k) ≠ .str [] := by
      simpa using decimalChars_ne_nil m k
    have hpre : preprocessEmptyToUndefined (.str (decimalChars m k))
        = .str (decimalChars m k) := by
      unfold preprocessEmptyToUndefined
      exact if_neg hne
    simp [interpret, hpre, jsToNumber, hj]

/-- C9 witness. -/
theorem interpret_partition_and_idempotent_witness :
    interpret (.str (decimalChars 5 0)) = .valid ((5 : ℚ) / 10 ^ 0) :=
  interpret_partition_and_idempotent.2 (.num (.finite ((5 : ℚ) / 10 ^ 0))) 5 0 (by
    simp [interpret, preprocessEmptyToUndefined, jsToNumber])

/-- C2: the claim reads "validating an Empty input on a required
numeric field with label L yields exactly the error L不能为空". The code
attaches that message to a finiteness refinement, but the empty string
preprocesses to `undefined`, which `z.coerce.number()` turns into NaN;
zod then aborts with its own invalid-type issue before any refinement
runs, so the reported error is the library default, never L不能为空. -/
theorem requiredNumber_empty_reports_invalid_type :
    ∀ (label : String) (cfg : NumCfg),
      requiredNumberValidate label cfg (.str []) = .aborted [invalidTypeNan]
      ∧ invalidTypeNan ≠ label ++ "不能为空" := by
  intro label cfg
  refine ⟨rfl, ?_⟩
  apply ne_of_lastChar
  rw [lastChar_append _ _ (by decide)]
  decide

/-- C3 counterexample: the numeric interpreter does not trim before its
empty check; the whitespace-only string " " coerces through JavaScript
`Number()` to 0, so it is classified Valid(0), not Empty. -/
theorem interpret_space_is_valid_zero :
    interpret (.str [' ']) = .valid 0 ∧ NumResult.valid 0 ≠ .empty := by
  exact ⟨rfl, by decide⟩

/-- C3 amended: only the exact empty string is classified Empty by the
text pipeline (no trimming happens before the emptiness test); a
whitespace-only string such as " " instead coerces to Valid(0). -/
theorem interpret_empty_iff_nil :
    (∀ cs : List Char, interpret (.str cs) = .empty ↔ cs = [])
    ∧ interpret (.str [' ']) = .valid 0 := by
  refine ⟨fun cs => ?_, rfl⟩
  unfold interpret preprocessEmptyToUndefined
  by_cases h : cs = []
  · subst h
    simp
  · simp only [if_neg (by simpa using h : ¬ (RawValue.str cs = RawValue.str []))]
    cases jsToNumber (.str cs) <;> simp <;> exact h

/-- C3 amended witness. -/
theorem interpret_empty_iff_nil_witness : interpret (.str []) = .empty :=
  (interpret_empty_iff_nil.1 []).mpr rfl

/-- C4: the claim reads "every Invalid raw value reports L需为有效数字".
Non-numeric text such as "abc" coerces to NaN, which zod rejects with
its default invalid-type issue before the finiteness refinement carrying
that message can run — on both the required and the optional schema —
and the default message differs from the claimed one. -/
theorem invalid_text_reports_invalid_type :
    ∀ (label : String) (cfg : NumCfg) (ocfg : OptNumCfg),
      requiredNumberValidate label cfg (.str "abc".data) = .aborted [invalidTypeNan]
      ∧ optionalNumberValidate ocfg (.str "abc".data) = .aborted [invalidTypeNan]
      ∧ invalidTypeNan ≠ labelOr ocfg.label ++ "需为有效数字" := by
  intro label cfg ocfg
  refine ⟨rfl, rfl, ?_⟩
  apply ne_of_lastChar
  rw [lastChar_append _ _ (by decide)]
  decide

/-- C6: on end-to-end scenario 1 the derived global `lottery` object is
exactly conditions (countdown_range [30,180], max_viewers 5000,
min_probability 80), fan_club false and post_stay [5,10], with no
switch_threshold key (the empty-string threshold is not a number and is
omitted). -/
theorem buildGlobalLottery_scenario1 :
    buildGlobalLottery scenario1 =
      [("conditions", YVal.obj
          [("countdown_range", YVal.pair 30 180),
           ("max_viewers", YVal.num 5000),
           ("min_probability", YVal.num 80)]),
       ("fan_club", YVal.bool false),
       ("post_stay", YVal.pair 5 10)]
    ∧ "switch_threshold" ∉ (buildGlobalLottery scenario1).map Prod.fst := by
  exact ⟨rfl, by decide⟩

/-- C10: derivation decides presence with a runtime type test
(`toOptionalNumber` is concrete only on an already-finite number), while
validation coerces strings; so the numeric string "5" in the switch
threshold passes the field validation with value 5, yet derivation
treats it as absent and omits the `switch_threshold` key. -/
theorem derivation_ignores_numeric_strings :
    (∀ v : RawValue, toOptionalNumber v =
      (match v with
       | .num (.finite q) => some q
       | _ => none))
    ∧ toOptionalNumber (.str ['5']) = none
    ∧ optionalNumberValidate ⟨some 0, none, true, some "策略切换阈值"⟩ (.str ['5'])
        = .ok (some (.finite 5))
    ∧ "switch_threshold" ∉ (buildGlobalLottery scenario10).map Prod.fst := by
  refine ⟨fun v => ?_, rfl, rfl, by decide⟩
  cases v with
  | str cs => rfl
  | undef => rfl
  | num n => cases n <;> rfl

end HomeVue
